import Mathlib

/-!
Formal model of the guard-patrol simulator in `src/jtornetta/06/06.py`
(Advent of Code 2024, day 6).

Python strings become `List Char`, the grid becomes `List (List Char)`,
Python `set`s become `Finset`s.  A Python run that raises an uncaught
exception is modelled by an `Except PyError` value, and the unbounded
`while True` loop of `simulate_guard` is modelled with explicit fuel
(`loopFuel`), chosen large enough that it is never exhausted; for valid
grids this is proved below (`runGuard_ok`).
-/

/-- Grid positions are integer coordinates `(x, y)`, `x` growing rightwards
and `y` growing downwards, exactly as the Python tuples. -/
abbrev Pos := Int × Int

/-- The four guard headings.  They stand for the direction characters
`'^'`, `'>'`, `'v'`, `'<'` that the Python code carries around. -/
inductive Dir
  | up
  | right
  | down
  | left
  deriving DecidableEq, Repr

/-- Uncaught Python exceptions the day-6 script can raise:
`IndexError` from `len(grid[0])` on an empty grid, `KeyError` from
`moves[None]` when no start marker was found, and `IndexError` from
indexing into a row shorter than `width` in a non-rectangular grid. -/
inductive PyError
  | emptyGridIndexError
  | noStartKeyError
  | raggedIndexError
  deriving DecidableEq, Repr

deriving instance DecidableEq for Except

/-- Direction denoted by a marker character, `none` for every other
character.  This models both the `char in '^>v<'` tests and the decoding
of the found marker into the initial heading. -/
def charDir : Char → Option Dir
  | '^' => some .up
  | '>' => some .right
  | 'v' => some .down
  | '<' => some .left
  | _ => none

/-- The `get_next_position` function of the source: one step from `(x, y)`
in direction `d` (`'^'` is `y - 1`, `'v'` is `y + 1`, `'<'` is `x - 1`,
`'>'` is `x + 1`). -/
def get_next_position (x y : Int) (d : Dir) : Pos :=
  match d with
  | .up => (x, y - 1)
  | .down => (x, y + 1)
  | .left => (x - 1, y)
  | .right => (x + 1, y)

/-- The `turn_right` function of the source: rotate the heading 90 degrees
clockwise (`'^' -> '>'`, `'>' -> 'v'`, `'v' -> '<'`, `'<' -> '^'`). -/
def turn_right : Dir → Dir
  | .up => .right
  | .right => .down
  | .down => .left
  | .left => .up

/-- Python `width = len(grid[0])` (meaningful once the grid is nonempty). -/
def width (grid : List (List Char)) : Nat := (grid.headD []).length

/-- Python `height = len(grid)`. -/
def height (grid : List (List Char)) : Nat := grid.length

/-- Cell of the grid at column `x`, row `y`; Python `grid[y][x]` for
nonnegative indices.  `none` models the `IndexError` that Python raises
when the row is missing or shorter than `x + 1`; negative indices never
reach the grid access in the source because they are bounds-checked first,
so they are also mapped to `none`. -/
def cellAt (grid : List (List Char)) (x y : Int) : Option Char :=
  if 0 ≤ x ∧ 0 ≤ y then (grid[y.toNat]?).bind fun row => row[x.toNat]?
  else none

/-- The bounds check `0 <= next_x < width and 0 <= next_y < height`. -/
abbrev InGrid (w h : Nat) (p : Pos) : Prop :=
  0 ≤ p.1 ∧ p.1 < (w : Int) ∧ 0 ≤ p.2 ∧ p.2 < (h : Int)

/-- A grid is rectangular: every row has the width of the first row. -/
abbrev Rect (grid : List (List Char)) : Prop :=
  ∀ row ∈ grid, row.length = width grid

/-- Scan one row, left to right, for the first marker character; `x` is the
column of the first character of `row`.  Models the inner
`for x, char in enumerate(row)` loop with its `break`. -/
def findInRow : List Char → Int → Option (Int × Dir)
  | [], _ => none
  | c :: rest, x =>
    match charDir c with
    | some d => some (x, d)
    | none => findInRow rest (x + 1)

/-- Scan the rows, top to bottom, for the first row holding a marker; `y` is
the row index of the first row.  Models the outer `for y, row in
enumerate(grid)` loop of `simulate_guard` with its `break`. -/
def findStartFrom : List (List Char) → Int → Option (Int × Int × Dir)
  | [], _ => none
  | row :: rest, y =>
    match findInRow row 0 with
    | some (x, d) => some (x, y, d)
    | none => findStartFrom rest (y + 1)

/-- The start scan of `simulate_guard` (lines 60-70 of the source): first
marker in row-major order, with its position and heading. -/
def findStart (grid : List (List Char)) : Option (Int × Int × Dir) :=
  findStartFrom grid 0

/-- Scan one row for the column of its first marker character.  Models the
inner scan of `find_loop_positions` (lines 124-130 of the source). -/
def findPosInRow : List Char → Int → Option Int
  | [], _ => none
  | c :: rest, x =>
    if (charDir c).isSome then some x else findPosInRow rest (x + 1)

/-- Row-by-row scan of `find_loop_positions` for the start position. -/
def findStartPosFrom : List (List Char) → Int → Option Pos
  | [], _ => none
  | row :: rest, y =>
    match findPosInRow row 0 with
    | some x => some (x, y)
    | none => findStartPosFrom rest (y + 1)

/-- The start scan of `find_loop_positions`: position of the first marker in
row-major order. -/
def findStartPos (grid : List (List Char)) : Option Pos :=
  findStartPosFrom grid 0

/-- All markers of one row, left to right, with their columns.  Together
with `markersRM` this is the specification-side description of the scan
order: it lists every marker, in the order the scans visit them. -/
def rowMarkersFrom : List Char → Int → List (Int × Dir)
  | [], _ => []
  | c :: rest, x =>
    match charDir c with
    | some d => (x, d) :: rowMarkersFrom rest (x + 1)
    | none => rowMarkersFrom rest (x + 1)

/-- All markers of the grid from row `y` downwards, in row-major order. -/
def markersFrom : List (List Char) → Int → List (Int × Int × Dir)
  | [], _ => []
  | row :: rest, y =>
    ((rowMarkersFrom row 0).map fun m => (m.1, y, m.2)) ++ markersFrom rest (y + 1)

/-- All markers of the grid in row-major order (rows top to bottom, each row
left to right). -/
def markersRM (grid : List (List Char)) : List (Int × Int × Dir) :=
  markersFrom grid 0

/-- Number of start markers in the grid. -/
def markerCount (grid : List (List Char)) : Nat := (markersRM grid).length

/-- The mutable loop state of `simulate_guard`: current position `(x, y)`,
current heading, the `visited_positions` set and the `state_history` set. -/
structure SimState where
  x : Int
  y : Int
  dir : Dir
  visited : Finset Pos
  history : Finset (Int × Int × Dir)
  deriving DecidableEq

/-- Result of one iteration of the `while True` loop: continue with a new
state, return `(visited, loops)`, or raise (ragged-grid `IndexError`). -/
inductive StepRes
  | cont (s : SimState)
  | done (visited : Finset Pos) (loops : Bool)
  | err (e : PyError)
  deriving DecidableEq

/-- One iteration of the `while True` loop of `simulate_guard`
(lines 78-102 of the source), with the candidate cell computed by
`get_next_position`, the bounds check, the blocked check against `'#'` and
the optional `block_pos`, the right turn or the move, and the loop check
against `state_history`.  In the move branch the new position is added to
`visited_positions` before the loop check, exactly as in the source. -/
def stepGuard (grid : List (List Char)) (w h : Nat) (block_pos : Option Pos)
    (s : SimState) : StepRes :=
  if InGrid w h (get_next_position s.x s.y s.dir) then
    match cellAt grid (get_next_position s.x s.y s.dir).1
        (get_next_position s.x s.y s.dir).2 with
    | none => .err .raggedIndexError
    | some c =>
      if c = '#' ∨ block_pos = some (get_next_position s.x s.y s.dir) then
        if (s.x, s.y, turn_right s.dir) ∈ s.history then .done s.visited true
        else
          .cont { s with dir := turn_right s.dir,
                         history := insert (s.x, s.y, turn_right s.dir) s.history }
      else
        if ((get_next_position s.x s.y s.dir).1,
            (get_next_position s.x s.y s.dir).2, s.dir) ∈ s.history then
          .done (insert (get_next_position s.x s.y s.dir) s.visited) true
        else
          .cont { x := (get_next_position s.x s.y s.dir).1,
                  y := (get_next_position s.x s.y s.dir).2,
                  dir := s.dir,
                  visited := insert (get_next_position s.x s.y s.dir) s.visited,
                  history := insert ((get_next_position s.x s.y s.dir).1,
                    (get_next_position s.x s.y s.dir).2, s.dir) s.history }
  else .done s.visited false

/-- The `while True` loop, with fuel.  `none` means the fuel ran out, which
never happens at the fuel `simulate_guard` supplies. -/
def runGuard (grid : List (List Char)) (w h : Nat) (block_pos : Option Pos) :
    Nat → SimState → Option (Except PyError (Finset Pos × Bool))
  | 0, _ => none
  | fuel + 1, s =>
    match stepGuard grid w h block_pos s with
    | .done v l => some (.ok (v, l))
    | .err e => some (.error e)
    | .cont t => runGuard grid w h block_pos fuel t

/-- Fuel bound: the loop of `simulate_guard` runs at most
`(width * height + 1) * 4` iterations, because every iteration that does
not return inserts a state that was not yet in `state_history`, and every
recorded state has its position either inside the grid box or equal to the
start position. -/
def loopFuel (w h : Nat) : Nat := (w * h + 1) * 4 + 1

/-- The loop state right before the first iteration:
`visited_positions = {(start_x, start_y)}` and
`state_history = {(start_x, start_y, start_dir)}`. -/
def initState (sx sy : Int) (d : Dir) : SimState :=
  { x := sx, y := sy, dir := d, visited := {(sx, sy)}, history := {(sx, sy, d)} }

/-- The `simulate_guard` function of the source.  An empty grid raises the
`IndexError` of `len(grid[0])`; a grid with no marker raises the `KeyError`
of `moves[None]` in the first `get_next_position` call; otherwise the
patrol loop runs from the first marker found in row-major order. -/
def simulate_guard (grid : List (List Char)) (block_pos : Option Pos) :
    Option (Except PyError (Finset Pos × Bool)) :=
  match grid with
  | [] => some (.error .emptyGridIndexError)
  | _ :: _ =>
    match findStart grid with
    | none => some (.error .noStartKeyError)
    | some (sx, sy, d) =>
      runGuard grid (width grid) (height grid) block_pos
        (loopFuel (width grid) (height grid)) (initState sx sy d)

/-- The four neighbour offsets `[(0, 1), (1, 0), (0, -1), (-1, 0)]` that
`find_loop_positions` scans around every visited position. -/
def neighborOffsets : List (Int × Int) := [(0, 1), (1, 0), (0, -1), (-1, 0)]

/-- Neighbour candidates of one visited position that pass the conditions
of lines 138-143 of the source: within bounds, not a `'#'` cell, not the
start position. -/
def nbrCands (grid : List (List Char)) (start_pos : Option Pos) (p : Pos) :
    List Pos :=
  (neighborOffsets.map fun o => (p.1 + o.1, p.2 + o.2)).filter fun q =>
    decide (InGrid (width grid) (height grid) q) &&
      decide (cellAt grid q.1 q.2 ≠ some '#') && decide (start_pos ≠ some q)

/-- The `positions_to_check` set built by `find_loop_positions`. -/
def positions_to_check (grid : List (List Char)) (start_pos : Option Pos)
    (visited : Finset Pos) : Finset Pos :=
  visited.biUnion fun p => (nbrCands grid start_pos p).toFinset

/-- Neighbour cells whose `grid[test_y][test_x]` access would raise
`IndexError` during candidate generation: within the nominal bounds but in
a row shorter than `width` (possible only for non-rectangular grids). -/
def crashSet (grid : List (List Char)) (visited : Finset Pos) : Finset Pos :=
  visited.biUnion fun p =>
    ((neighborOffsets.map fun o => (p.1 + o.1, p.2 + o.2)).filter fun q =>
      decide (InGrid (width grid) (height grid) q) &&
        (cellAt grid q.1 q.2).isNone).toFinset

/-- The candidate positions that `find_loop_positions` actually simulates
with an obstruction: the members of `positions_to_check` that lie on the
baseline visited path (the `if test_pos in original_visited` filter of
line 147). -/
def testedCands (grid : List (List Char)) (start_pos : Option Pos)
    (visited : Finset Pos) : Finset Pos :=
  (positions_to_check grid start_pos visited).filter fun p => p ∈ visited

/-- Outcome of one candidate simulation, keeping only the loop flag. -/
def simLoops (grid : List (List Char)) (p : Pos) : Option (Except PyError Bool) :=
  match simulate_guard grid (some p) with
  | none => none
  | some (.error e) => some (.error e)
  | some (.ok (_, l)) => some (.ok l)

/-- True when a candidate simulation raised.  With a marker present and a
nonempty grid the only exception a candidate simulation can raise is the
ragged-row `IndexError`. -/
def simRaised : Option (Except PyError Bool) → Bool
  | some (.error _) => true
  | _ => false

/-- The `find_loop_positions` function of the source: baseline run, start
scan, candidate generation around the visited path, and one simulation per
candidate that lies on the baseline path, counting the looping ones.
Exceptions propagate: from `len(grid[0])` on an empty grid, from the
baseline run, from candidate generation on a ragged grid, and from the
candidate runs (which, given that the baseline run returned, can only be
the ragged-row `IndexError`). -/
def find_loop_positions (grid : List (List Char)) : Option (Except PyError Nat) :=
  match grid with
  | [] => some (.error .emptyGridIndexError)
  | _ :: _ =>
    match simulate_guard grid none with
    | none => none
    | some (.error e) => some (.error e)
    | some (.ok (original_visited, _)) =>
      if crashSet grid original_visited = ∅ then
        if (testedCands grid (findStartPos grid) original_visited).filter
            (fun p => (simLoops grid p).isNone = true) = ∅ then
          if (testedCands grid (findStartPos grid) original_visited).filter
              (fun p => simRaised (simLoops grid p) = true) = ∅ then
            some (.ok ((testedCands grid (findStartPos grid)
              original_visited).filter
                (fun p => simLoops grid p = some (Except.ok true))).card)
          else some (.error .raggedIndexError)
        else none
      else some (.error .raggedIndexError)

/-- The `solve_puzzle` function of the source, taking the already split
lines of the input file: part 1 is the size of the baseline visited set,
part 2 the obstruction count. -/
def solve_puzzle (grid : List (List Char)) : Option (Except PyError (Nat × Nat)) :=
  match simulate_guard grid none with
  | none => none
  | some (.error e) => some (.error e)
  | some (.ok (visited, _)) =>
    match find_loop_positions grid with
    | none => none
    | some (.error e) => some (.error e)
    | some (.ok n) => some (.ok (visited.card, n))

/-- Unit vector of a heading, worded as in the specification (`Up`
decreases `y`, `Down` increases `y`, `Left` decreases `x`, `Right`
increases `x`). -/
def unitVector : Dir → Int × Int
  | .up => (0, -1)
  | .right => (1, 0)
  | .down => (0, 1)
  | .left => (-1, 0)

/-- Specification-side step 5: given the updated position and heading, end
with `Looping` if the pair is already in the history, else insert it and
record the position into the visited set. -/
def stepSpecFinish (visited : Finset Pos) (history : Finset (Int × Int × Dir))
    (p : Pos) (d : Dir) : StepRes :=
  if (p.1, p.2, d) ∈ history then .done visited true
  else
    .cont { x := p.1, y := p.2, dir := d, visited := insert p visited,
            history := insert (p.1, p.2, d) history }

/-- Specification-side transition step, worded as in the claim: the
candidate cell is the position plus the unit vector of the heading; outside
the bounds the run ends with `Exited`; a blocked candidate (permanent `'#'`
or the obstruction) turns the heading right with the position unchanged; an
open candidate becomes the position; then the new pair is checked against
the history. -/
def stepSpec (grid : List (List Char)) (w h : Nat) (block_pos : Option Pos)
    (s : SimState) : StepRes :=
  if InGrid w h (s.x + (unitVector s.dir).1, s.y + (unitVector s.dir).2) then
    if cellAt grid (s.x + (unitVector s.dir).1) (s.y + (unitVector s.dir).2)
        = some '#' ∨
        block_pos = some (s.x + (unitVector s.dir).1, s.y + (unitVector s.dir).2) then
      stepSpecFinish s.visited s.history (s.x, s.y) (turn_right s.dir)
    else
      stepSpecFinish s.visited s.history
        (s.x + (unitVector s.dir).1, s.y + (unitVector s.dir).2) s.dir
  else .done s.visited false

example : simulate_guard [['^', '.'], ['.', '.']] none
    = some (.ok ({((0 : Int), (0 : Int))}, false)) := by decide

example : simulate_guard [['.', '#', '.'], ['#', '^', '#'], ['.', '#', '.']] none
    = some (.ok ({((1 : Int), (1 : Int))}, true)) := by decide

/-- Fuel monotonicity: a run that finishes with some fuel finishes
identically with more fuel. -/
lemma runGuard_mono (grid : List (List Char)) (w h : Nat) (b : Option Pos) :
    ∀ {n m : Nat}, n ≤ m → ∀ {s : SimState} {r},
      runGuard grid w h b n s = some r → runGuard grid w h b m s = some r := by
  intro n
  induction n with
  | zero => intro m _ s r hr; simp [runGuard] at hr
  | succ k ih =>
    intro m hm s r hr
    obtain ⟨m', rfl⟩ : ∃ m', m = m' + 1 := ⟨m - 1, by omega⟩
    rw [runGuard] at hr ⊢
    cases hstep : stepGuard grid w h b s with
    | done v l => rw [hstep] at hr; exact hr
    | err e => rw [hstep] at hr; exact hr
    | cont t => rw [hstep] at hr; exact ih (by omega) hr

/-- A finished step returns a superset of the current visited set. -/
lemma stepGuard_done_sub {grid : List (List Char)} {w h : Nat} {b : Option Pos}
    {s : SimState} {V : Finset Pos} {l : Bool}
    (hd : stepGuard grid w h b s = .done V l) : s.visited ⊆ V := by
  unfold stepGuard at hd
  split at hd
  · split at hd
    · simp at hd
    · split at hd
      · split at hd
        · cases hd; exact Finset.Subset.refl _
        · simp at hd
      · split at hd
        · cases hd; exact Finset.subset_insert _ _
        · simp at hd
  · cases hd; exact Finset.Subset.refl _

/-- A continuing step keeps the visited set growing. -/
lemma stepGuard_cont_sub {grid : List (List Char)} {w h : Nat} {b : Option Pos}
    {s t : SimState} (hc : stepGuard grid w h b s = .cont t) :
    s.visited ⊆ t.visited := by
  unfold stepGuard at hc
  split at hc
  · split at hc
    · simp at hc
    · split at hc
      · split at hc
        · simp at hc
        · cases hc; exact Finset.Subset.refl _
      · split at hc
        · simp at hc
        · cases hc; exact Finset.subset_insert _ _
  · simp at hc

/-- A continuing step inserts a state that was not yet in the history. -/
lemma stepGuard_cont_hist {grid : List (List Char)} {w h : Nat} {b : Option Pos}
    {s t : SimState} (hc : stepGuard grid w h b s = .cont t) :
    ∃ st, st ∉ s.history ∧ t.history = insert st s.history := by
  unfold stepGuard at hc
  split at hc
  · split at hc
    · simp at hc
    · split at hc
      · split at hc
        · simp at hc
        · rename_i hmem; cases hc; exact ⟨_, hmem, rfl⟩
      · split at hc
        · simp at hc
        · rename_i hmem; cases hc; exact ⟨_, hmem, rfl⟩
  · simp at hc

/-- The visited set only grows along a run. -/
lemma runGuard_visited_mono {grid : List (List Char)} {w h : Nat} {b : Option Pos} :
    ∀ {n : Nat} {s : SimState} {V : Finset Pos} {l : Bool},
      runGuard grid w h b n s = some (.ok (V, l)) → s.visited ⊆ V := by
  intro n
  induction n with
  | zero => intro s V l hr; simp [runGuard] at hr
  | succ k ih =>
    intro s V l hr
    rw [runGuard] at hr
    cases hstep : stepGuard grid w h b s with
    | done v l' =>
      rw [hstep] at hr
      obtain ⟨rfl, -⟩ : v = V ∧ l' = l := by
        simpa using hr
      exact stepGuard_done_sub hstep
    | err e => rw [hstep] at hr; simp at hr
    | cont t =>
      rw [hstep] at hr
      exact (stepGuard_cont_sub hstep).trans (ih hr)

/-- The single-step move of every heading is one of the four neighbour
offsets. -/
lemma dir_offset_mem (x y : Int) (d : Dir) :
    ∃ o ∈ neighborOffsets, get_next_position x y d = (x + o.1, y + o.2) := by
  cases d
  · exact ⟨(0, -1), by simp [neighborOffsets], by
      simp [get_next_position, sub_eq_add_neg]⟩
  · exact ⟨(1, 0), by simp [neighborOffsets], by simp [get_next_position]⟩
  · exact ⟨(0, 1), by simp [neighborOffsets], by simp [get_next_position]⟩
  · exact ⟨(-1, 0), by simp [neighborOffsets], by
      simp [get_next_position, sub_eq_add_neg]⟩

/-- A step never stays on the same cell. -/
lemma get_next_ne (x y : Int) (d : Dir) : get_next_position x y d ≠ (x, y) := by
  cases d <;> simp only [get_next_position, ne_eq, Prod.mk.injEq, not_and] <;>
    intro h1 <;> omega

/-- On a rectangular grid, every in-bounds cell access succeeds. -/
lemma cellAt_some_rect {grid : List (List Char)} {p : Pos} (hr : Rect grid)
    (hin : InGrid (width grid) (height grid) p) :
    ∃ c, cellAt grid p.1 p.2 = some c := by
  obtain ⟨h1, h2, h3, h4⟩ := hin
  have hy : p.2.toNat < grid.length := by
    have : height grid = grid.length := rfl
    omega
  have hrow : grid[p.2.toNat]? = some grid[p.2.toNat] := List.getElem?_eq_getElem hy
  have hmem : grid[p.2.toNat] ∈ grid := List.getElem_mem hy
  have hlen : (grid[p.2.toNat]).length = width grid := hr _ hmem
  have hx : p.1.toNat < (grid[p.2.toNat]).length := by omega
  refine ⟨grid[p.2.toNat][p.1.toNat], ?_⟩
  unfold cellAt
  rw [if_pos ⟨h1, h3⟩, hrow]
  exact List.getElem?_eq_getElem hx

/-- A successful cell access on a rectangular grid implies the position is
within the nominal bounds. -/
lemma InGrid_of_cellAt {grid : List (List Char)} {x y : Int} {c : Char}
    (hr : Rect grid) (hc : cellAt grid x y = some c) :
    InGrid (width grid) (height grid) (x, y) := by
  unfold cellAt at hc
  split at hc
  · rename_i hpos
    obtain ⟨row, hrow, hcell⟩ := Option.bind_eq_some.mp hc
    obtain ⟨hy, hrowe⟩ := List.getElem?_eq_some.mp hrow
    obtain ⟨hx, -⟩ := List.getElem?_eq_some.mp hcell
    have hmem : row ∈ grid := hrowe ▸ List.getElem_mem hy
    have hlen : row.length = width grid := hr _ hmem
    have : height grid = grid.length := rfl
    exact ⟨hpos.1, by omega, hpos.2, by omega⟩
  · cases hc

/-- Invariants of the visited set of a run started at `start`: it holds the
start, all its members are within bounds and on non-`'#'` cells, and every
member other than the start is one neighbour offset away from another
member (its predecessor on the path). -/
structure GoodVis (grid : List (List Char)) (start : Pos) (V : Finset Pos) : Prop where
  start_mem : start ∈ V
  mem_in : ∀ p ∈ V, InGrid (width grid) (height grid) p
  mem_open : ∀ p ∈ V, cellAt grid p.1 p.2 ≠ some '#'
  mem_reach : ∀ p ∈ V, p = start ∨
    ∃ q ∈ V, ∃ o ∈ neighborOffsets, p = (q.1 + o.1, q.2 + o.2)

/-- Recording a move onto an in-bounds open neighbour of a member keeps the
visited-set invariants. -/
lemma GoodVis.insert_move {grid : List (List Char)} {start : Pos} {V : Finset Pos}
    (hg : GoodVis grid start V) {q n : Pos} (hq : q ∈ V)
    (ho : ∃ o ∈ neighborOffsets, n = (q.1 + o.1, q.2 + o.2))
    (hin : InGrid (width grid) (height grid) n)
    (hopen : cellAt grid n.1 n.2 ≠ some '#') :
    GoodVis grid start (insert n V) := by
  refine ⟨Finset.mem_insert_of_mem hg.start_mem, ?_, ?_, ?_⟩
  · intro p hp
    rcases Finset.mem_insert.mp hp with rfl | hp
    · exact hin
    · exact hg.mem_in p hp
  · intro p hp
    rcases Finset.mem_insert.mp hp with rfl | hp
    · exact hopen
    · exact hg.mem_open p hp
  · intro p hp
    rcases Finset.mem_insert.mp hp with rfl | hp
    · exact Or.inr ⟨q, Finset.mem_insert_of_mem hq, ho⟩
    · rcases hg.mem_reach p hp with hs | ⟨q', hq', ho'⟩
      · exact Or.inl hs
      · exact Or.inr ⟨q', Finset.mem_insert_of_mem hq', ho'⟩

/-- Invariants of the whole loop state: the current position is recorded in
the visited set, the visited set is well formed, and every recorded state
has an in-bounds position. -/
structure GoodRun (grid : List (List Char)) (start : Pos) (s : SimState) : Prop where
  pos_vis : (s.x, s.y) ∈ s.visited
  vis : GoodVis grid start s.visited
  hist_in : ∀ t ∈ s.history, InGrid (width grid) (height grid) (t.1, t.2.1)

/-- One continuing loop iteration preserves the run invariants. -/
lemma stepGuard_cont_good {grid : List (List Char)} {b : Option Pos} {start : Pos}
    {s t : SimState} (hg : GoodRun grid start s)
    (hc : stepGuard grid (width grid) (height grid) b s = .cont t) :
    GoodRun grid start t := by
  unfold stepGuard at hc
  split at hc
  · rename_i hin
    split at hc
    · simp at hc
    · rename_i c hcell
      split at hc
      · split at hc
        · simp at hc
        · rename_i hmem
          cases hc
          refine ⟨hg.pos_vis, hg.vis, ?_⟩
          intro u hu
          rcases Finset.mem_insert.mp hu with rfl | hu
          · exact hg.vis.mem_in _ hg.pos_vis
          · exact hg.hist_in u hu
      · rename_i hblock
        split at hc
        · simp at hc
        · rename_i hmem
          cases hc
          have hck : c ≠ '#' := fun hh => hblock (Or.inl hh)
          have hopen : cellAt grid (get_next_position s.x s.y s.dir).1
              (get_next_position s.x s.y s.dir).2 ≠ some '#' := by
            rw [hcell]; exact fun hh => hck (Option.some.inj hh)
          refine ⟨?_, ?_, ?_⟩
          · simp
          · exact hg.vis.insert_move hg.pos_vis (dir_offset_mem s.x s.y s.dir) hin hopen
          · intro u hu
            rcases Finset.mem_insert.mp hu with rfl | hu
            · simpa using hin
            · exact hg.hist_in u hu
  · simp at hc

/-- A finishing loop iteration returns a well-formed visited set. -/
lemma stepGuard_done_good {grid : List (List Char)} {b : Option Pos} {start : Pos}
    {s : SimState} {V : Finset Pos} {l : Bool} (hg : GoodRun grid start s)
    (hd : stepGuard grid (width grid) (height grid) b s = .done V l) :
    GoodVis grid start V := by
  unfold stepGuard at hd
  split at hd
  · rename_i hin
    split at hd
    · simp at hd
    · rename_i c hcell
      split at hd
      · split at hd
        · cases hd; exact hg.vis
        · simp at hd
      · rename_i hblock
        split at hd
        · cases hd
          have hck : c ≠ '#' := fun hh => hblock (Or.inl hh)
          have hopen : cellAt grid (get_next_position s.x s.y s.dir).1
              (get_next_position s.x s.y s.dir).2 ≠ some '#' := by
            rw [hcell]; exact fun hh => hck (Option.some.inj hh)
          exact hg.vis.insert_move hg.pos_vis (dir_offset_mem s.x s.y s.dir) hin hopen
        · simp at hd
  · cases hd; exact hg.vis

/-- On a rectangular grid a loop iteration never raises. -/
lemma stepGuard_ne_err {grid : List (List Char)} {b : Option Pos} {s : SimState}
    (hrect : Rect grid) {e : PyError} :
    stepGuard grid (width grid) (height grid) b s ≠ .err e := by
  intro hc
  unfold stepGuard at hc
  split at hc
  · rename_i hin
    split at hc
    · rename_i hcell
      obtain ⟨c, hsome⟩ := cellAt_some_rect hrect hin
      rw [hsome] at hcell
      simp at hcell
    · split at hc
      · split at hc <;> simp at hc
      · split at hc <;> simp at hc
  · simp at hc

/-- The four headings as a finite set. -/
def dirAll : Finset Dir := {.up, .right, .down, .left}

lemma mem_dirAll (d : Dir) : d ∈ dirAll := by cases d <;> decide

/-- The full state space of the cycle detection: in-bounds positions paired
with the four headings. -/
def stateSpace (w h : Nat) : Finset (Int × Int × Dir) :=
  Finset.Icc (0 : Int) ((w : Int) - 1) ×ˢ (Finset.Icc (0 : Int) ((h : Int) - 1) ×ˢ dirAll)

lemma mem_stateSpace {w h : Nat} {t : Int × Int × Dir}
    (hin : InGrid w h (t.1, t.2.1)) : t ∈ stateSpace w h := by
  obtain ⟨h1, h2, h3, h4⟩ := hin
  refine Finset.mem_product.mpr ⟨?_, Finset.mem_product.mpr ⟨?_, mem_dirAll _⟩⟩
  · exact Finset.mem_Icc.mpr ⟨h1, by omega⟩
  · exact Finset.mem_Icc.mpr ⟨h3, by omega⟩

lemma stateSpace_card (w h : Nat) : (stateSpace w h).card = w * h * 4 := by
  have hw : ((w : Int) - 1 + 1 - 0).toNat = w := by omega
  have hh : ((h : Int) - 1 + 1 - 0).toNat = h := by omega
  have hd : dirAll.card = 4 := by decide
  rw [stateSpace, Finset.card_product, Finset.card_product, Int.card_Icc,
    Int.card_Icc, hw, hh, hd]
  ring

/-- Termination with invariants: from any well-formed state, a run with
enough fuel (the size of the untouched part of the state space plus one)
returns normally, with a well-formed visited superset.  Rectangularity
rules out the ragged-row `IndexError`. -/
lemma runGuard_ok {grid : List (List Char)} {b : Option Pos} {start : Pos}
    (hrect : Rect grid) :
    ∀ (fuel : Nat) (s : SimState), GoodRun grid start s →
      width grid * height grid * 4 + 1 ≤ fuel + s.history.card →
      ∃ V l, runGuard grid (width grid) (height grid) b fuel s = some (.ok (V, l)) ∧
        s.visited ⊆ V ∧ GoodVis grid start V := by
  intro fuel
  induction fuel with
  | zero =>
    intro s hg hfuel
    exfalso
    have hsub : s.history ⊆ stateSpace (width grid) (height grid) :=
      fun t ht => mem_stateSpace (hg.hist_in t ht)
    have hle := Finset.card_le_card hsub
    rw [stateSpace_card] at hle
    omega
  | succ k ih =>
    intro s hg hfuel
    rw [runGuard]
    cases hstep : stepGuard grid (width grid) (height grid) b s with
    | done v l =>
      exact ⟨v, l, rfl, stepGuard_done_sub hstep, stepGuard_done_good hg hstep⟩
    | err e => exact absurd hstep (stepGuard_ne_err hrect)
    | cont t =>
      obtain ⟨st, hnot, hhist⟩ := stepGuard_cont_hist hstep
      have hcard : t.history.card = s.history.card + 1 := by
        rw [hhist]; exact Finset.card_insert_of_not_mem hnot
      obtain ⟨V, l, hrun, hsub, hgv⟩ := ih t (stepGuard_cont_good hg hstep) (by omega)
      exact ⟨V, l, hrun, (stepGuard_cont_sub hstep).trans hsub, hgv⟩

/-- A successful row scan found a marker character at the reported column. -/
lemma findInRow_some :
    ∀ (row : List Char) (x x' : Int) (d : Dir), findInRow row x = some (x', d) →
      x ≤ x' ∧ ∃ c, row[(x' - x).toNat]? = some c ∧ charDir c = some d := by
  intro row
  induction row with
  | nil => intro x x' d hfind; simp [findInRow] at hfind
  | cons c rest ih =>
    intro x x' d hfind
    rw [findInRow] at hfind
    cases hc : charDir c with
    | some d0 =>
      rw [hc] at hfind
      obtain ⟨rfl, rfl⟩ : x = x' ∧ d0 = d := by simpa using hfind
      refine ⟨le_refl _, c, ?_, hc⟩
      simp
    | none =>
      rw [hc] at hfind
      obtain ⟨hle, cc, hcc, hdir⟩ := ih (x + 1) x' d hfind
      refine ⟨by omega, cc, ?_, hdir⟩
      have hidx : (x' - x).toNat = (x' - (x + 1)).toNat + 1 := by omega
      rw [hidx]
      simpa using hcc

/-- A successful grid scan found its row at the reported row index. -/
lemma findStartFrom_some :
    ∀ (grid : List (List Char)) (y sx sy : Int) (d : Dir),
      findStartFrom grid y = some (sx, sy, d) →
      y ≤ sy ∧ ∃ row, grid[(sy - y).toNat]? = some row ∧ findInRow row 0 = some (sx, d) := by
  intro grid
  induction grid with
  | nil => intro y sx sy d h; simp [findStartFrom] at h
  | cons row rest ih =>
    intro y sx sy d h
    rw [findStartFrom] at h
    cases hr : findInRow row 0 with
    | some m =>
      obtain ⟨x0, d0⟩ := m
      rw [hr] at h
      obtain ⟨rfl, rfl, rfl⟩ : x0 = sx ∧ y = sy ∧ d0 = d := by simpa using h
      exact ⟨le_refl _, row, by simp, hr⟩
    | none =>
      rw [hr] at h
      obtain ⟨hle, r, hrow, hfir⟩ := ih (y + 1) sx sy d h
      refine ⟨by omega, r, ?_, hfir⟩
      have hidx : (sy - y).toNat = (sy - (y + 1)).toNat + 1 := by omega
      rw [hidx]
      simpa using hrow

/-- The start returned by the scan of `simulate_guard` sits on a marker
character of the grid. -/
lemma findStart_cell {grid : List (List Char)} {sx sy : Int} {d : Dir}
    (h : findStart grid = some (sx, sy, d)) :
    ∃ c, cellAt grid sx sy = some c ∧ charDir c = some d := by
  obtain ⟨hy, row, hrow, hfir⟩ := findStartFrom_some grid 0 sx sy d h
  obtain ⟨hx, c, hc, hdir⟩ := findInRow_some row 0 sx d hfir
  refine ⟨c, ?_, hdir⟩
  unfold cellAt
  rw [if_pos ⟨hx, hy⟩]
  have h1 : (sy - 0).toNat = sy.toNat := by omega
  have h2 : (sx - 0).toNat = sx.toNat := by omega
  rw [h1] at hrow
  rw [h2] at hc
  rw [hrow]
  simpa using hc

/-- Marker characters are not walls. -/
lemma charDir_ne_hash {c : Char} {d : Dir} (h : charDir c = some d) : c ≠ '#' := by
  intro hc
  subst hc
  simp [charDir] at h

/-- On a rectangular grid the found start is in bounds and open. -/
lemma findStart_good {grid : List (List Char)} {sx sy : Int} {d : Dir}
    (hrect : Rect grid) (h : findStart grid = some (sx, sy, d)) :
    InGrid (width grid) (height grid) (sx, sy) ∧ cellAt grid sx sy ≠ some '#' := by
  obtain ⟨c, hc, hdir⟩ := findStart_cell h
  refine ⟨InGrid_of_cellAt hrect hc, ?_⟩
  rw [hc]
  exact fun hh => charDir_ne_hash hdir (Option.some.inj hh)

/-- The seeded loop state satisfies the run invariants. -/
lemma initState_good {grid : List (List Char)} {sx sy : Int} {d : Dir}
    (hrect : Rect grid) (h : findStart grid = some (sx, sy, d)) :
    GoodRun grid (sx, sy) (initState sx sy d) := by
  obtain ⟨hin, hopen⟩ := findStart_good hrect h
  refine ⟨by simp [initState], ⟨by simp [initState], ?_, ?_, ?_⟩, ?_⟩
  · intro p hp; simp [initState] at hp; subst hp; exact hin
  · intro p hp; simp [initState] at hp; subst hp; exact hopen
  · intro p hp; simp [initState] at hp; subst hp; exact Or.inl rfl
  · intro t ht; simp [initState] at ht; subst ht; exact hin

/-- On a rectangular grid with a found start, the run returns within
`width*height*4` iterations, and `simulate_guard` returns that same result
at its own fuel. -/
lemma simulate_guard_ok {grid : List (List Char)} {sx sy : Int} {d : Dir}
    (hrect : Rect grid) (hfind : findStart grid = some (sx, sy, d)) (b : Option Pos) :
    ∃ V l, runGuard grid (width grid) (height grid) b
        (width grid * height grid * 4) (initState sx sy d) = some (.ok (V, l)) ∧
      simulate_guard grid b = some (.ok (V, l)) ∧ GoodVis grid (sx, sy) V := by
  have hne : grid ≠ [] := by
    intro hg; rw [hg] at hfind; exact Option.noConfusion hfind
  have hinit := initState_good hrect hfind
  have hcard : (initState sx sy d).history.card = 1 := by simp [initState]
  obtain ⟨V, l, hrun, hsub, hgv⟩ :=
    runGuard_ok (b := b) hrect (width grid * height grid * 4) (initState sx sy d)
      hinit (by simp [hcard])
  refine ⟨V, l, hrun, ?_, hgv⟩
  have hmono := runGuard_mono grid (width grid) (height grid) b
    (n := width grid * height grid * 4) (m := loopFuel (width grid) (height grid))
    (by unfold loopFuel; generalize width grid * height grid = a; omega) hrun
  cases grid with
  | nil => exact absurd rfl hne
  | cons r rest =>
    unfold simulate_guard
    rw [hfind]
    exact hmono

/-- The break-on-first-marker row scan returns the head of the full list of
markers of the row. -/
lemma findInRow_eq_head :
    ∀ (row : List Char) (x : Int), findInRow row x = (rowMarkersFrom row x).head? := by
  intro row
  induction row with
  | nil => intro x; simp [findInRow, rowMarkersFrom]
  | cons c rest ih =>
    intro x
    rw [findInRow, rowMarkersFrom]
    cases hc : charDir c with
    | some d => simp
    | none => simpa using ih (x + 1)

/-- The break-on-first-marker grid scan returns the head of the row-major
list of all markers. -/
lemma findStartFrom_eq_head :
    ∀ (grid : List (List Char)) (y : Int),
      findStartFrom grid y = (markersFrom grid y).head? := by
  intro grid
  induction grid with
  | nil => intro y; simp [findStartFrom, markersFrom]
  | cons row rest ih =>
    intro y
    rw [findStartFrom, markersFrom, findInRow_eq_head]
    cases hr : rowMarkersFrom row 0 with
    | nil => simpa using ih (y + 1)
    | cons m ms =>
      obtain ⟨x0, d0⟩ := m
      simp

lemma findStart_eq_head (grid : List (List Char)) :
    findStart grid = (markersRM grid).head? :=
  findStartFrom_eq_head grid 0

/-- The scan of `find_loop_positions` is the scan of `simulate_guard` with
the heading dropped: row by row. -/
lemma findPosInRow_eq :
    ∀ (row : List Char) (x : Int),
      findPosInRow row x = (findInRow row x).map Prod.fst := by
  intro row
  induction row with
  | nil => intro x; simp [findPosInRow, findInRow]
  | cons c rest ih =>
    intro x
    rw [findPosInRow, findInRow]
    cases hc : charDir c with
    | some d => simp
    | none => simpa [hc] using ih (x + 1)

lemma findStartPosFrom_eq :
    ∀ (grid : List (List Char)) (y : Int),
      findStartPosFrom grid y = (findStartFrom grid y).map fun t => (t.1, t.2.1) := by
  intro grid
  induction grid with
  | nil => intro y; simp [findStartPosFrom, findStartFrom]
  | cons row rest ih =>
    intro y
    rw [findStartPosFrom, findStartFrom, findPosInRow_eq]
    cases hr : findInRow row 0 with
    | some m => obtain ⟨x0, d0⟩ := m; simp
    | none => simpa using ih (y + 1)

/-- The two start scans of the source agree: the obstruction search finds
the position of the start the simulator uses. -/
lemma findStartPos_eq (grid : List (List Char)) :
    findStartPos grid = (findStart grid).map fun t => (t.1, t.2.1) :=
  findStartPosFrom_eq grid 0

/-- A grid with exactly one marker has a found start. -/
lemma findStart_of_one {grid : List (List Char)} (hone : markerCount grid = 1) :
    ∃ sx sy d, findStart grid = some (sx, sy, d) := by
  rw [findStart_eq_head]
  unfold markerCount at hone
  cases hm : markersRM grid with
  | nil => rw [hm] at hone; simp at hone
  | cons m ms =>
    obtain ⟨sx, sy, d⟩ := m
    exact ⟨sx, sy, d, by simp [hm]⟩

/-- A row without marker characters produces no markers. -/
lemma rowMarkersFrom_nil {row : List Char} (h : ∀ c ∈ row, charDir c = none) :
    ∀ x, rowMarkersFrom row x = [] := by
  induction row with
  | nil => intro x; rfl
  | cons c rest ih =>
    intro x
    rw [rowMarkersFrom, h c (by simp)]
    exact ih (fun c' hc' => h c' (by simp [hc'])) (x + 1)

/-- A grid without marker characters produces no markers. -/
lemma markersFrom_nil {grid : List (List Char)}
    (h : ∀ row ∈ grid, ∀ c ∈ row, charDir c = none) :
    ∀ y, markersFrom grid y = [] := by
  induction grid with
  | nil => intro y; rfl
  | cons row rest ih =>
    intro y
    rw [markersFrom, rowMarkersFrom_nil (h row (by simp)) 0]
    simpa using ih (fun r hr c hc => h r (by simp [hr]) c hc) (y + 1)

/-- Claim C2: for every valid grid (exactly one start marker, rectangular
rows) and every optional single-cell obstruction, the simulator run
terminates normally within at most `width*height*4` loop iterations
(reaching one of the two terminal outcomes, `l = false` for Exited and
`l = true` for Looping), and `simulate_guard` returns that same result. -/
theorem claim_C2_termination (grid : List (List Char)) (b : Option Pos)
    (hrect : Rect grid) (hone : markerCount grid = 1) :
    ∃ sx sy d V l, findStart grid = some (sx, sy, d) ∧
      runGuard grid (width grid) (height grid) b (width grid * height grid * 4)
        (initState sx sy d) = some (.ok (V, l)) ∧
      simulate_guard grid b = some (.ok (V, l)) := by
  obtain ⟨sx, sy, d, hfind⟩ := findStart_of_one hone
  obtain ⟨V, l, hrun, hsim, -⟩ := simulate_guard_ok hrect hfind b
  exact ⟨sx, sy, d, V, l, hfind, hrun, hsim⟩

/-- Witness for C2 at a concrete valid grid and empty obstruction. -/
theorem claim_C2_witness :
    Rect [['^', '.'], ['.', '#']] ∧ markerCount [['^', '.'], ['.', '#']] = 1 ∧
    (∃ sx sy d V l, findStart [['^', '.'], ['.', '#']] = some (sx, sy, d) ∧
      runGuard [['^', '.'], ['.', '#']] (width [['^', '.'], ['.', '#']])
        (height [['^', '.'], ['.', '#']]) none
        (width [['^', '.'], ['.', '#']] * height [['^', '.'], ['.', '#']] * 4)
        (initState sx sy d) = some (.ok (V, l)) ∧
      simulate_guard [['^', '.'], ['.', '#']] none = some (.ok (V, l))) :=
  ⟨by decide, by decide, claim_C2_termination _ none (by decide) (by decide)⟩

/-- Claim C7: for every valid grid and optional obstruction, the returned
visited set contains the start position, and every member is within the
grid bounds and not a permanently blocked cell. -/
theorem claim_C7_visited_invariants (grid : List (List Char)) (b : Option Pos)
    (hrect : Rect grid) (hone : markerCount grid = 1) :
    ∃ sx sy d V l, findStart grid = some (sx, sy, d) ∧
      simulate_guard grid b = some (.ok (V, l)) ∧ (sx, sy) ∈ V ∧
      ∀ p ∈ V, InGrid (width grid) (height grid) p ∧ cellAt grid p.1 p.2 ≠ some '#' := by
  obtain ⟨sx, sy, d, hfind⟩ := findStart_of_one hone
  obtain ⟨V, l, -, hsim, hgv⟩ := simulate_guard_ok hrect hfind b
  exact ⟨sx, sy, d, V, l, hfind, hsim, hgv.start_mem,
    fun p hp => ⟨hgv.mem_in p hp, hgv.mem_open p hp⟩⟩

/-- Witness for C7 at a concrete valid grid and a concrete obstruction. -/
theorem claim_C7_witness :
    Rect [['.', '.'], ['^', '#']] ∧ markerCount [['.', '.'], ['^', '#']] = 1 ∧
    (∃ sx sy d V l, findStart [['.', '.'], ['^', '#']] = some (sx, sy, d) ∧
      simulate_guard [['.', '.'], ['^', '#']] (some (0, 0)) = some (.ok (V, l)) ∧
      (sx, sy) ∈ V ∧
      ∀ p ∈ V, InGrid (width [['.', '.'], ['^', '#']])
        (height [['.', '.'], ['^', '#']]) p ∧
        cellAt [['.', '.'], ['^', '#']] p.1 p.2 ≠ some '#') :=
  ⟨by decide, by decide,
    claim_C7_visited_invariants _ (some (0, 0)) (by decide) (by decide)⟩

/-- Claim C8: `turn_right` is a 4-cycle (four applications are the
identity on every heading) and maps Up to Right, Right to Down, Down to
Left and Left to Up. -/
theorem claim_C8_turn_right_cycle :
    (∀ d : Dir, turn_right (turn_right (turn_right (turn_right d))) = d) ∧
    turn_right .up = .right ∧ turn_right .right = .down ∧
    turn_right .down = .left ∧ turn_right .left = .up := by
  refine ⟨?_, rfl, rfl, rfl, rfl⟩
  intro d
  cases d <;> rfl

/-- Claim C9: the simulator is deterministic — identical grid and
obstruction inputs (the start is derived from the grid) produce identical
`(VisitedPositions, terminal)` results. -/
theorem claim_C9_deterministic (g1 g2 : List (List Char)) (b1 b2 : Option Pos)
    (hg : g1 = g2) (hb : b1 = b2) :
    simulate_guard g1 b1 = simulate_guard g2 b2 := by
  subst hg
  subst hb
  rfl

/-- Witness for C9 at concrete equal inputs. -/
theorem claim_C9_witness :
    ([['^']] : List (List Char)) = [['^']] ∧ (none : Option Pos) = none ∧
    simulate_guard [['^']] none = simulate_guard [['^']] none :=
  ⟨rfl, rfl, claim_C9_deterministic _ _ _ _ rfl rfl⟩

/-- Claim C10: on a grid with more than one marker, both the simulator scan
and the obstruction-search scan pick the same start, the first marker in
row-major order, silently ignoring the remaining markers. -/
theorem claim_C10_first_marker (grid : List (List Char))
    (hmany : 2 ≤ markerCount grid) :
    ∃ sx sy d rest, markersRM grid = (sx, sy, d) :: rest ∧ rest ≠ [] ∧
      findStart grid = some (sx, sy, d) ∧ findStartPos grid = some (sx, sy) := by
  unfold markerCount at hmany
  cases hm : markersRM grid with
  | nil => rw [hm] at hmany; simp at hmany
  | cons m ms =>
    obtain ⟨sx, sy, d⟩ := m
    have hfind : findStart grid = some (sx, sy, d) := by
      rw [findStart_eq_head, hm]; rfl
    refine ⟨sx, sy, d, ms, rfl, ?_, hfind, ?_⟩
    · intro hms
      rw [hm, hms] at hmany
      simp at hmany
    · rw [findStartPos_eq, hfind]; rfl

/-- Witness for C10 at a concrete two-marker grid. -/
theorem claim_C10_witness :
    2 ≤ markerCount [['^', '>']] ∧
    (∃ sx sy d rest, markersRM [['^', '>']] = (sx, sy, d) :: rest ∧ rest ≠ [] ∧
      findStart [['^', '>']] = some (sx, sy, d) ∧
      findStartPos [['^', '>']] = some (sx, sy)) :=
  ⟨by decide, claim_C10_first_marker _ (by decide)⟩

/-- Claim C5: a nonempty grid with no start marker character makes the
simulation fail — the uncaught Python `KeyError` at the direction lookup,
the code's realisation of the missing-start failure — with no default
start assumed, and the whole obstruction search aborts with that same
failure, producing no count and running no candidate simulation. -/
theorem claim_C5_no_start (grid : List (List Char)) (b : Option Pos)
    (hne : grid ≠ [])
    (hnomark : ∀ row ∈ grid, ∀ c ∈ row, charDir c = none) :
    simulate_guard grid b = some (.error .noStartKeyError) ∧
    find_loop_positions grid = some (.error .noStartKeyError) := by
  have hfind : findStart grid = none := by
    rw [findStart_eq_head]
    unfold markersRM
    rw [markersFrom_nil hnomark 0]
    rfl
  cases grid with
  | nil => exact absurd rfl hne
  | cons r rest =>
    have hsim : ∀ b' : Option Pos,
        simulate_guard (r :: rest) b' = some (.error .noStartKeyError) := by
      intro b'
      unfold simulate_guard
      rw [hfind]
    refine ⟨hsim b, ?_⟩
    unfold find_loop_positions
    rw [hsim none]

/-- Witness for C5 at a concrete markerless grid. -/
theorem claim_C5_witness :
    ([['.', '.'], ['.', '#']] : List (List Char)) ≠ [] ∧
    (∀ row ∈ ([['.', '.'], ['.', '#']] : List (List Char)), ∀ c ∈ row,
      charDir c = none) ∧
    simulate_guard [['.', '.'], ['.', '#']] none = some (.error .noStartKeyError) ∧
    find_loop_positions [['.', '.'], ['.', '#']] = some (.error .noStartKeyError) :=
  ⟨by decide, by decide, claim_C5_no_start _ none (by decide) (by decide)⟩

/-- Claim C4 counterexample: a concrete non-rectangular input on which the
program does not fail at all — no `FormatError` exists, the simulation is
attempted and the whole pipeline returns a normal result, contradicting
the claim that non-equal-width rows fail with no simulation attempted. -/
theorem claim_C4_counterexample :
    ¬ Rect [['^', '.'], ['.', '.', '.'], ['.', '.', '.']] ∧
    solve_puzzle [['^', '.'], ['.', '.', '.'], ['.', '.', '.']] =
      some (.ok (1, 0)) := by
  exact ⟨by decide, by decide⟩

/-- Claim C4 amended: the code validates nothing.  Empty input fails — as
the uncaught `IndexError` of `len(grid[0])`, not a dedicated
`FormatError` — before any simulation step, in the simulator, the
obstruction search and the driver alike; non-rectangular input is not
rejected: the pipeline runs on it and can return a normal result. -/
theorem claim_C4_amended :
    simulate_guard [] none = some (.error .emptyGridIndexError) ∧
    find_loop_positions [] = some (.error .emptyGridIndexError) ∧
    solve_puzzle [] = some (.error .emptyGridIndexError) ∧
    solve_puzzle [['^', '.'], ['.', '.', '.'], ['.', '.', '.']] =
      some (.ok (1, 0)) :=
  ⟨rfl, rfl, rfl, by decide⟩

/-- The code's candidate computation is the position plus the unit vector
of the heading, as the specification words it. -/
lemma get_next_unitVector (x y : Int) (d : Dir) :
    get_next_position x y d = (x + (unitVector d).1, y + (unitVector d).2) := by
  cases d <;> simp [get_next_position, unitVector, sub_eq_add_neg]

/-- Claim C1: on a rectangular grid, one iteration of the simulator loop is
exactly the specification's transition step, for every loop state whose
current position is recorded in the visited set and whose recorded states
all have their positions in the visited set (both hold on every reachable
state of a run). -/
theorem claim_C1_step_spec (grid : List (List Char)) (b : Option Pos) (s : SimState)
    (hrect : Rect grid) (hpos : (s.x, s.y) ∈ s.visited)
    (hhist : ∀ t ∈ s.history, (t.1, t.2.1) ∈ s.visited) :
    stepGuard grid (width grid) (height grid) b s =
      stepSpec grid (width grid) (height grid) b s := by
  unfold stepGuard stepSpec
  rw [get_next_unitVector]
  by_cases hin : InGrid (width grid) (height grid)
      (s.x + (unitVector s.dir).1, s.y + (unitVector s.dir).2)
  · rw [if_pos hin, if_pos hin]
    obtain ⟨c, hc⟩ := cellAt_some_rect hrect hin
    dsimp only at hc ⊢
    rw [hc]
    simp only [Option.some.injEq]
    by_cases hb : c = '#' ∨
        b = some (s.x + (unitVector s.dir).1, s.y + (unitVector s.dir).2)
    · rw [if_pos hb, if_pos hb]
      unfold stepSpecFinish
      dsimp only
      by_cases hm : (s.x, s.y, turn_right s.dir) ∈ s.history
      · rw [if_pos hm, if_pos hm]
      · rw [if_neg hm, if_neg hm, Finset.insert_eq_self.mpr hpos]
    · rw [if_neg hb, if_neg hb]
      unfold stepSpecFinish
      dsimp only
      by_cases hm : (s.x + (unitVector s.dir).1, s.y + (unitVector s.dir).2,
          s.dir) ∈ s.history
      · rw [if_pos hm, if_pos hm]
        have hmem : (s.x + (unitVector s.dir).1, s.y + (unitVector s.dir).2)
            ∈ s.visited := hhist _ hm
        rw [Finset.insert_eq_self.mpr hmem]
      · rw [if_neg hm, if_neg hm]
  · rw [if_neg hin, if_neg hin]

/-- Witness for C1 at a concrete rectangular grid and loop state. -/
theorem claim_C1_witness :
    Rect [['^', '.'], ['.', '#']] ∧
    ((initState 0 0 .up).x, (initState 0 0 .up).y) ∈ (initState 0 0 .up).visited ∧
    (∀ t ∈ (initState 0 0 .up).history,
      (t.1, t.2.1) ∈ (initState 0 0 .up).visited) ∧
    stepGuard [['^', '.'], ['.', '#']] (width [['^', '.'], ['.', '#']])
        (height [['^', '.'], ['.', '#']]) none (initState 0 0 .up) =
      stepSpec [['^', '.'], ['.', '#']] (width [['^', '.'], ['.', '#']])
        (height [['^', '.'], ['.', '#']]) none (initState 0 0 .up) :=
  ⟨by decide, by decide, by decide,
    claim_C1_step_spec _ none _ (by decide) (by decide) (by decide)⟩

/-- Membership in the `positions_to_check` set built by the source: a
neighbour of some visited position that is within bounds, not a wall and
not the start position. -/
lemma mem_positions_to_check {grid : List (List Char)} {sp : Option Pos}
    {V : Finset Pos} {p : Pos} :
    p ∈ positions_to_check grid sp V ↔
      (∃ q ∈ V, ∃ o ∈ neighborOffsets, p = (q.1 + o.1, q.2 + o.2)) ∧
        InGrid (width grid) (height grid) p ∧ cellAt grid p.1 p.2 ≠ some '#' ∧
        sp ≠ some p := by
  unfold positions_to_check nbrCands
  rw [Finset.mem_biUnion]
  constructor
  · rintro ⟨q, hq, hp⟩
    rw [List.mem_toFinset, List.mem_filter] at hp
    obtain ⟨hmap, hcond⟩ := hp
    rw [List.mem_map] at hmap
    obtain ⟨o, ho, heq⟩ := hmap
    simp only [Bool.and_eq_true, decide_eq_true_eq] at hcond
    exact ⟨⟨q, hq, o, ho, heq.symm⟩, hcond.1.1, hcond.1.2, hcond.2⟩
  · rintro ⟨⟨q, hq, o, ho, heq⟩, hin, hopen, hsp⟩
    refine ⟨q, hq, ?_⟩
    rw [List.mem_toFinset, List.mem_filter]
    refine ⟨List.mem_map.mpr ⟨o, ho, heq.symm⟩, ?_⟩
    simp only [Bool.and_eq_true, decide_eq_true_eq]
    exact ⟨⟨hin, hopen⟩, hsp⟩

/-- On the visited set of a run, the candidates actually simulated are the
visited positions other than the start: every non-start visited position is
a within-bounds non-wall neighbour of another visited position, and the
start is excluded explicitly by the source's condition. -/
lemma testedCands_eq {grid : List (List Char)} {start : Pos} {V : Finset Pos}
    (hgv : GoodVis grid start V) :
    testedCands grid (some start) V = V.erase start := by
  ext p
  rw [Finset.mem_erase]
  unfold testedCands
  rw [Finset.mem_filter]
  constructor
  · rintro ⟨hp, hpV⟩
    obtain ⟨-, -, -, hsp⟩ := mem_positions_to_check.mp hp
    exact ⟨fun he => hsp (by rw [he]), hpV⟩
  · rintro ⟨hne, hpV⟩
    refine ⟨?_, hpV⟩
    rcases hgv.mem_reach p hpV with rfl | ⟨q, hq, ho⟩
    · exact absurd rfl hne
    · exact mem_positions_to_check.mpr ⟨⟨q, hq, ho⟩, hgv.mem_in p hpV,
        hgv.mem_open p hpV, fun hsp => hne (Option.some.inj hsp).symm⟩

/-- On a rectangular grid, candidate generation never raises. -/
lemma crashSet_empty {grid : List (List Char)} (hrect : Rect grid)
    (V : Finset Pos) : crashSet grid V = ∅ := by
  rw [Finset.eq_empty_iff_forall_not_mem]
  intro p hp
  unfold crashSet at hp
  rw [Finset.mem_biUnion] at hp
  obtain ⟨q, hq, hp⟩ := hp
  rw [List.mem_toFinset, List.mem_filter] at hp
  obtain ⟨-, hcond⟩ := hp
  simp only [Bool.and_eq_true, decide_eq_true_eq, Option.isNone_iff_eq_none] at hcond
  obtain ⟨hin, hnone⟩ := hcond
  obtain ⟨c, hc⟩ := cellAt_some_rect hrect hin
  rw [hc] at hnone
  cases hnone

/-- On a rectangular grid with a found start, every candidate simulation
returns normally. -/
lemma simLoops_ok {grid : List (List Char)} {sx sy : Int} {d : Dir}
    (hrect : Rect grid) (hfind : findStart grid = some (sx, sy, d)) (p : Pos) :
    ∃ l, simLoops grid p = some (.ok l) := by
  obtain ⟨V, l, -, hsim, -⟩ := simulate_guard_ok hrect hfind (some p)
  refine ⟨l, ?_⟩
  unfold simLoops
  rw [hsim]

lemma tested_filter_isNone_empty {grid : List (List Char)} {sx sy : Int} {d : Dir}
    (hrect : Rect grid) (hfind : findStart grid = some (sx, sy, d))
    (T : Finset Pos) :
    (T.filter fun p => (simLoops grid p).isNone = true) = ∅ := by
  rw [Finset.eq_empty_iff_forall_not_mem]
  intro p hp
  rw [Finset.mem_filter] at hp
  obtain ⟨l, hl⟩ := simLoops_ok hrect hfind p
  rw [hl] at hp
  simp at hp

lemma tested_filter_raised_empty {grid : List (List Char)} {sx sy : Int} {d : Dir}
    (hrect : Rect grid) (hfind : findStart grid = some (sx, sy, d))
    (T : Finset Pos) :
    (T.filter fun p => simRaised (simLoops grid p) = true) = ∅ := by
  rw [Finset.eq_empty_iff_forall_not_mem]
  intro p hp
  rw [Finset.mem_filter] at hp
  obtain ⟨l, hl⟩ := simLoops_ok hrect hfind p
  rw [hl] at hp
  simp [simRaised] at hp

/-- Claim C3: on every valid grid, the candidate positions the obstruction
search actually simulates are exactly the baseline visited positions minus
the start; in particular the start and the permanently blocked cells are
never candidates, and the returned count is the number of such candidates
whose simulation loops. -/
theorem claim_C3_candidates (grid : List (List Char))
    (hrect : Rect grid) (hone : markerCount grid = 1) :
    ∃ sx sy d V l, findStart grid = some (sx, sy, d) ∧
      simulate_guard grid none = some (.ok (V, l)) ∧
      testedCands grid (findStartPos grid) V = V.erase (sx, sy) ∧
      (sx, sy) ∉ testedCands grid (findStartPos grid) V ∧
      (∀ p ∈ testedCands grid (findStartPos grid) V,
        cellAt grid p.1 p.2 ≠ some '#') ∧
      find_loop_positions grid = some (.ok ((V.erase (sx, sy)).filter
        (fun p => simLoops grid p = some (Except.ok true))).card) := by
  obtain ⟨sx, sy, d, hfind⟩ := findStart_of_one hone
  obtain ⟨V, l, -, hsim, hgv⟩ := simulate_guard_ok hrect hfind none
  have hsp : findStartPos grid = some (sx, sy) := by
    rw [findStartPos_eq, hfind]; rfl
  have htested : testedCands grid (findStartPos grid) V = V.erase (sx, sy) := by
    rw [hsp]; exact testedCands_eq hgv
  refine ⟨sx, sy, d, V, l, hfind, hsim, htested, ?_, ?_, ?_⟩
  · rw [htested]; simp
  · intro p hp
    rw [htested] at hp
    exact hgv.mem_open p (Finset.mem_of_mem_erase hp)
  · cases grid with
    | nil => simp [findStart, findStartFrom] at hfind
    | cons r rest =>
      unfold find_loop_positions
      rw [hsim]
      dsimp only
      rw [crashSet_empty hrect V, if_pos rfl,
        tested_filter_isNone_empty hrect hfind, if_pos rfl,
        tested_filter_raised_empty hrect hfind, if_pos rfl, htested]

/-- Witness for C3 at a concrete valid grid. -/
theorem claim_C3_witness :
    Rect [['.', '#'], ['.', '.'], ['^', '.']] ∧
    markerCount [['.', '#'], ['.', '.'], ['^', '.']] = 1 ∧
    (∃ sx sy d V l,
      findStart [['.', '#'], ['.', '.'], ['^', '.']] = some (sx, sy, d) ∧
      simulate_guard [['.', '#'], ['.', '.'], ['^', '.']] none = some (.ok (V, l)) ∧
      testedCands [['.', '#'], ['.', '.'], ['^', '.']]
        (findStartPos [['.', '#'], ['.', '.'], ['^', '.']]) V = V.erase (sx, sy) ∧
      (sx, sy) ∉ testedCands [['.', '#'], ['.', '.'], ['^', '.']]
        (findStartPos [['.', '#'], ['.', '.'], ['^', '.']]) V ∧
      (∀ p ∈ testedCands [['.', '#'], ['.', '.'], ['^', '.']]
        (findStartPos [['.', '#'], ['.', '.'], ['^', '.']]) V,
        cellAt [['.', '#'], ['.', '.'], ['^', '.']] p.1 p.2 ≠ some '#') ∧
      find_loop_positions [['.', '#'], ['.', '.'], ['^', '.']] =
        some (.ok ((V.erase (sx, sy)).filter
          (fun p => simLoops [['.', '#'], ['.', '.'], ['^', '.']] p =
            some (Except.ok true))).card)) :=
  ⟨by decide, by decide, claim_C3_candidates _ (by decide) (by decide)⟩

/-- The four iterated right turns from any heading are pairwise distinct. -/
lemma turn_distinct (d : Dir) :
    turn_right d ≠ d ∧
    turn_right (turn_right d) ≠ d ∧
    turn_right (turn_right d) ≠ turn_right d ∧
    turn_right (turn_right (turn_right d)) ≠ d ∧
    turn_right (turn_right (turn_right d)) ≠ turn_right d ∧
    turn_right (turn_right (turn_right d)) ≠ turn_right (turn_right d) := by
  cases d <;> refine ⟨?_, ?_, ?_, ?_, ?_, ?_⟩ <;> decide

/-- Every heading is reached from any heading within three right turns. -/
lemma dir_cycle (a b : Dir) :
    b = a ∨ b = turn_right a ∨ b = turn_right (turn_right a) ∨
      b = turn_right (turn_right (turn_right a)) := by
  cases a <;> cases b <;> decide

/-- One round of the pocket argument: if a run from a state sitting at
`(px, py)` with visited set exactly `{(px, py)}` ends `Looping` with a
size-1 visited set, then the cell ahead must be a wall (an exit would end
with `false`, a move would grow the visited set to at least two members),
and when the right-turned state is fresh the run continues from it. -/
lemma pocket_round {grid : List (List Char)} {w h : Nat} {px py : Int} {pd : Dir}
    {hist : Finset (Int × Int × Dir)} {V : Finset Pos} {fuel : Nat}
    (hhist : ∀ t ∈ hist, (t.1, t.2.1) = (px, py))
    (hrun : runGuard grid w h none (fuel + 1)
      { x := px, y := py, dir := pd, visited := {(px, py)}, history := hist } =
      some (.ok (V, true)))
    (hcard : V.card = 1) :
    cellAt grid (get_next_position px py pd).1 (get_next_position px py pd).2 =
      some '#' ∧
    ((px, py, turn_right pd) ∉ hist →
      runGuard grid w h none fuel
        { x := px, y := py, dir := turn_right pd, visited := {(px, py)},
          history := insert (px, py, turn_right pd) hist } =
        some (.ok (V, true))) := by
  rw [runGuard] at hrun
  by_cases hin : InGrid w h (get_next_position px py pd)
  · cases hcell : cellAt grid (get_next_position px py pd).1
        (get_next_position px py pd).2 with
    | none =>
      have hs : stepGuard grid w h none
          { x := px, y := py, dir := pd, visited := {(px, py)}, history := hist } =
          .err .raggedIndexError := by
        unfold stepGuard
        dsimp only
        rw [if_pos hin, hcell]
      rw [hs] at hrun
      simp at hrun
    | some c =>
      by_cases hc : c = '#'
      · subst hc
        refine ⟨rfl, fun hnotin => ?_⟩
        have hs : stepGuard grid w h none
            { x := px, y := py, dir := pd, visited := {(px, py)}, history := hist } =
            .cont { x := px, y := py, dir := turn_right pd, visited := {(px, py)},
                    history := insert (px, py, turn_right pd) hist } := by
          unfold stepGuard
          dsimp only
          rw [if_pos hin, hcell]
          dsimp only
          rw [if_pos (Or.inl rfl), if_neg hnotin]
        rw [hs] at hrun
        exact hrun
      · exfalso
        have hnm : ((get_next_position px py pd).1,
            (get_next_position px py pd).2, pd) ∉ hist := by
          intro hm
          exact get_next_ne px py pd (hhist _ hm)
        have hbf : ¬(c = '#' ∨ (none : Option Pos) =
            some (get_next_position px py pd)) := by
          rintro (hh | hh)
          · exact hc hh
          · exact Option.noConfusion hh
        have hs : stepGuard grid w h none
            { x := px, y := py, dir := pd, visited := {(px, py)}, history := hist } =
            .cont { x := (get_next_position px py pd).1,
                    y := (get_next_position px py pd).2,
                    dir := pd,
                    visited := insert (get_next_position px py pd) {(px, py)},
                    history := insert ((get_next_position px py pd).1,
                      (get_next_position px py pd).2, pd) hist } := by
          unfold stepGuard
          dsimp only
          rw [if_pos hin, hcell]
          dsimp only
          rw [if_neg hbf, if_neg hnm]
        rw [hs] at hrun
        have hsub : insert (get_next_position px py pd) {(px, py)} ⊆ V :=
          runGuard_visited_mono hrun
        have hmemn : get_next_position px py pd ∈ V :=
          hsub (Finset.mem_insert_self _ _)
        have hmemp : (px, py) ∈ V := hsub (by simp)
        have h2 : ({(px, py), get_next_position px py pd} : Finset Pos) ⊆ V := by
          intro z hz
          rcases Finset.mem_insert.mp hz with rfl | hz
          · exact hmemp
          · rw [Finset.mem_singleton] at hz
            subst hz
            exact hmemn
        have hcard2 : ({(px, py), get_next_position px py pd} :
            Finset Pos).card = 2 := by
          rw [Finset.card_insert_of_not_mem (by
            rw [Finset.mem_singleton]
            exact fun hh => get_next_ne px py pd hh.symm)]
          simp
        have hle := Finset.card_le_card h2
        omega
  · have hs : stepGuard grid w h none
        { x := px, y := py, dir := pd, visited := {(px, py)}, history := hist } =
        .done {(px, py)} false := by
      unfold stepGuard
      dsimp only
      rw [if_neg hin]
    rw [hs] at hrun
    simp at hrun

/-- Claim C6 counterexample: there is no 3×3 grid on which the agent starts
in a pocket bounded by Blocked cells on exactly three sides and the run
ends `Looping` with a size-1 visited set.  Looping in place requires the
cells ahead of all four headings to be walls; with an open side among the
four, the agent either moves through it (visited size at least 2) or the
run ends `Exited` before any state can repeat. -/
theorem claim_C6_counterexample :
    ¬ ∃ (grid : List (List Char)) (sx sy : Int) (d : Dir) (V : Finset Pos),
      grid.length = 3 ∧ (∀ row ∈ grid, row.length = 3) ∧
      findStart grid = some (sx, sy, d) ∧
      (∃ o ∈ neighborOffsets,
        ¬ cellAt grid (sx + o.1) (sy + o.2) = some '#' ∧
        ∀ o2 ∈ neighborOffsets, o2 ≠ o →
          cellAt grid (sx + o2.1) (sy + o2.2) = some '#') ∧
      simulate_guard grid none = some (.ok (V, true)) ∧ V.card = 1 := by
  rintro ⟨grid, sx, sy, d, V, hlen, hrows, hfind, ⟨o, ho, hoopen, -⟩, hsim, hcard⟩
  obtain ⟨h1, h2, h3, h4, h5, h6⟩ := turn_distinct d
  cases grid with
  | nil => simp at hlen
  | cons r rest =>
  have hw : width (r :: rest) = 3 := hrows r (by simp)
  have hh : height (r :: rest) = 3 := hlen
  have hrun : runGuard (r :: rest) 3 3 none 41
      { x := sx, y := sy, dir := d, visited := {(sx, sy)},
        history := {(sx, sy, d)} } = some (.ok (V, true)) := by
    unfold simulate_guard at hsim
    rw [hfind, hw, hh] at hsim
    exact hsim
  rw [show (41 : Nat) = 40 + 1 from rfl] at hrun
  obtain ⟨hblk0, hnext0⟩ := pocket_round
    (by intro t ht; rw [Finset.mem_singleton] at ht; subst ht; rfl) hrun hcard
  have hrun1 := hnext0 (by simp [Prod.mk.injEq, h1])
  rw [show (40 : Nat) = 39 + 1 from rfl] at hrun1
  obtain ⟨hblk1, hnext1⟩ := pocket_round
    (by intro t ht
        simp only [Finset.mem_insert, Finset.mem_singleton] at ht
        rcases ht with rfl | rfl <;> rfl) hrun1 hcard
  have hrun2 := hnext1 (by simp [Prod.mk.injEq, h3, h2])
  rw [show (39 : Nat) = 38 + 1 from rfl] at hrun2
  obtain ⟨hblk2, hnext2⟩ := pocket_round
    (by intro t ht
        simp only [Finset.mem_insert, Finset.mem_singleton] at ht
        rcases ht with rfl | rfl | rfl <;> rfl) hrun2 hcard
  have hrun3 := hnext2 (by simp [Prod.mk.injEq, h6, h5, h4])
  rw [show (38 : Nat) = 37 + 1 from rfl] at hrun3
  obtain ⟨hblk3, -⟩ := pocket_round
    (by intro t ht
        simp only [Finset.mem_insert, Finset.mem_singleton] at ht
        rcases ht with rfl | rfl | rfl | rfl <;> rfl) hrun3 hcard
  have hblks : ∀ dd : Dir, cellAt (r :: rest) (get_next_position sx sy dd).1
      (get_next_position sx sy dd).2 = some '#' := by
    intro dd
    rcases dir_cycle d dd with rfl | rfl | rfl | rfl
    · exact hblk0
    · exact hblk1
    · exact hblk2
    · exact hblk3
  simp only [neighborOffsets, List.mem_cons, List.not_mem_nil, or_false] at ho
  rcases ho with rfl | rfl | rfl | rfl
  · exact hoopen (by simpa [get_next_position] using hblks Dir.down)
  · exact hoopen (by simpa [get_next_position] using hblks Dir.right)
  · exact hoopen (by simpa [get_next_position, sub_eq_add_neg] using hblks Dir.up)
  · exact hoopen (by simpa [get_next_position, sub_eq_add_neg] using hblks Dir.left)

/-- Claim C6 amended: on a 3×3 grid whose agent starts in a pocket bounded
by Blocked cells on all four sides, turning right repeatedly returns to an
already-seen `(position, heading)` without the agent ever moving, the run
ends `Looping`, and the returned visited set has size 1. -/
theorem claim_C6_amended :
    ([['.', '#', '.'], ['#', '^', '#'], ['.', '#', '.']] :
      List (List Char)).length = 3 ∧
    (∀ row ∈ ([['.', '#', '.'], ['#', '^', '#'], ['.', '#', '.']] :
      List (List Char)), row.length = 3) ∧
    findStart [['.', '#', '.'], ['#', '^', '#'], ['.', '#', '.']] =
      some (1, 1, .up) ∧
    (∀ o ∈ neighborOffsets,
      cellAt [['.', '#', '.'], ['#', '^', '#'], ['.', '#', '.']]
        (1 + o.1) (1 + o.2) = some '#') ∧
    simulate_guard [['.', '#', '.'], ['#', '^', '#'], ['.', '#', '.']] none =
      some (.ok ({(1, 1)}, true)) ∧
    ({((1 : Int), (1 : Int))} : Finset Pos).card = 1 :=
  ⟨rfl, by decide, by decide, by decide, by decide, by decide⟩
